import Mathlib

/-!
Verification of `pubmed-stream` (`src/pubmed_stream/downloader.py`,
`src/pubmed_stream/cli.py`) against its natural-language specification.

The Python code is shallowly embedded:

* XML documents (`xml.etree.ElementTree`) become the inductive `Element`
  tree; `ET.fromstring` is modelled by an `Option Element` input, `none`
  standing for a parse failure (`ET.ParseError` / any exception).
* `extract_metadata_from_pmc_xml` becomes a pure total function on
  `Option Element`, split into stages that mirror the source blocks.
* Network I/O is modelled by oracles: one response per attempt index.
* `RateLimiter` is modelled by the serialized trace of its mutex-guarded
  critical section: each call reads the monotonic clock (`now1`), sleeps
  if needed, reads it again (`now2`) and stores it as the new grant time.
* The aggregation loop of `search_and_download` and the CLI exit-code
  logic become pure folds over per-identifier outcomes.
-/

/-! ## XML element model (xml.etree.ElementTree) -/

/-- An XML element as exposed by `xml.etree.ElementTree`: tag, attribute
dictionary, text before the first child, child elements, and tail text
following the element's end tag inside its parent. -/
inductive Element where
  | mk (tag : String) (attrs : List (String × String)) (text : Option String)
       (children : List Element) (tail : Option String)

def Element.tag : Element → String
  | .mk t _ _ _ _ => t

def Element.attrs : Element → List (String × String)
  | .mk _ a _ _ _ => a

def Element.text : Element → Option String
  | .mk _ _ x _ _ => x

def Element.children : Element → List Element
  | .mk _ _ _ c _ => c

def Element.tail : Element → Option String
  | .mk _ _ _ _ tl => tl

/-- `element.get(key)` — attribute lookup, `None` when absent. -/
def Element.getAttr (e : Element) (k : String) : Option String :=
  (e.attrs.find? (fun p => p.1 == k)).map Prod.snd

/-- `element.find(name)` — first direct child with the given tag. -/
def findTag (e : Element) (name : String) : Option Element :=
  e.children.find? (fun c => c.tag == name)

/-- `element.find(tag ++ "[@attr='val']")` — first direct child with the
given tag whose attribute `attr` equals `val`. -/
def findTagAttr (e : Element) (tagName attr val : String) : Option Element :=
  e.children.find? (fun c => c.tag == tagName && c.getAttr attr == some val)

/-- `element.findall(name)` — all direct children with the given tag. -/
def findallTag (e : Element) (name : String) : List Element :=
  e.children.filter (fun c => c.tag == name)

/-- `element.findall(n1 ++ "/" ++ n2)` — grandchildren reached through a
child tagged `n1`, in document order. -/
def findallPath2 (e : Element) (n1 n2 : String) : List Element :=
  (e.children.filter (fun c => c.tag == n1)).flatMap
    (fun g => g.children.filter (fun c => c.tag == n2))

mutual

/-- `element.itertext()` — the text pieces of the element and of its
descendants, in document order (the element's own tail excluded). -/
def Element.itertext : Element → List String
  | .mk _ _ text children _ => text.toList ++ itertextList children

def itertextList : List Element → List String
  | [] => []
  | c :: cs => c.itertext ++ c.tail.toList ++ itertextList cs

end

/-- `element.findtext(name)` — `None` when no child matches; otherwise the
child's text, the empty string standing in for missing text. -/
def Element.findtext (e : Element) (name : String) : Option String :=
  (findTag e name).map (fun c => c.text.getD "")

/-- Python truthiness of an `Optional[str]`. -/
def truthy : Option String → Bool
  | none => false
  | some s => !(s == "")

/-- The six ASCII characters Python's `str.strip()` removes. -/
def isPyWhitespace (c : Char) : Bool :=
  c == ' ' || c == '\t' || c == '\n' || c == '\r' ||
  c == (Char.ofNat 11) || c == (Char.ofNat 12)

/-- `s.strip()` — leading and trailing whitespace removed. -/
def pyStrip (s : String) : String :=
  ⟨((s.data.dropWhile isPyWhitespace).reverse.dropWhile isPyWhitespace).reverse⟩

/-- `s.startswith(pre)`. -/
def pyStartsWith (s pre : String) : Bool := pre.data.isPrefixOf s.data

/-- Replacement loop of `str.replace` over the character list; the fuel
argument (initially the list length) only makes the recursion structural
and is never exhausted first. -/
def replaceCharsFuel (old new : List Char) : Nat → List Char → List Char
  | _, [] => []
  | 0, s => s
  | Nat.succ fuel, c :: cs =>
    if !old.isEmpty && old.isPrefixOf (c :: cs) then
      new ++ replaceCharsFuel old new fuel (List.drop (old.length - 1) cs)
    else c :: replaceCharsFuel old new fuel cs

/-- `s.replace(old, new)` for non-empty `old` — every occurrence replaced,
scanning left to right. -/
def pyReplace (s old new : String) : String :=
  ⟨replaceCharsFuel old.data new.data s.data.length s.data⟩

/-! ## MetadataRecord -/

/-- The nested `pub_date` dictionary: `month`/`day` keys are present only
when the corresponding component was resolved. -/
structure PubDateRec where
  year : String
  month : Option String := none
  day : Option String := none
deriving Repr, DecidableEq

/-- The metadata dictionary built by `extract_metadata_from_pmc_xml`;
`none` models an absent key. -/
structure Metadata where
  journal_title : Option String := none
  journal_nlm_ta : Option String := none
  journal_iso_abbrev : Option String := none
  journal : Option String := none
  pmid : Option String := none
  pmcid : Option String := none
  doi : Option String := none
  title : Option String := none
  year : Option String := none
  month : Option String := none
  day : Option String := none
  pub_date : Option PubDateRec := none
  authors : Option (List String) := none
  abstract : Option String := none
  keywords : Option (List String) := none
deriving Repr, DecidableEq

/-! ## extract_metadata_from_pmc_xml (downloader.py lines 212-371) -/

/-- Conditional stores of the journal names (lines 259-273): each specific
field kept only when truthy, and the generic `journal` alias resolved in
the order title, ISO abbreviation, NLM abbreviation. -/
def journalAssign (journal_title journal_nlm_ta journal_iso_abbrev : Option String)
    (metadata : Metadata) : Metadata :=
  let md := metadata
  let md := if truthy journal_title then { md with journal_title := journal_title } else md
  let md := if truthy journal_nlm_ta then { md with journal_nlm_ta := journal_nlm_ta } else md
  let md := if truthy journal_iso_abbrev then { md with journal_iso_abbrev := journal_iso_abbrev } else md
  if truthy journal_title then { md with journal := journal_title }
  else if truthy journal_iso_abbrev then { md with journal := journal_iso_abbrev }
  else if truthy journal_nlm_ta then { md with journal := journal_nlm_ta }
  else md

/-- Journal information block (lines 239-273). -/
def journalStage (journal_meta : Option Element) (metadata : Metadata) : Metadata :=
  let journal_title : Option String :=
    match journal_meta with
    | none => none
    | some jm =>
      match findTag jm "journal-title-group" with
      | none => none
      | some jtg =>
        match findTag jtg "journal-title" with
        | none => none
        | some jt => some (pyStrip (String.join jt.itertext))
  let jids := match journal_meta with
    | none => []
    | some jm => findallTag jm "journal-id"
  let pair := jids.foldl (fun (acc : Option String × Option String) jid =>
    let jid_type := (jid.getAttr "journal-id-type").getD ""
    let value := pyStrip (jid.text.getD "")
    if jid_type == "nlm-ta" then (some value, acc.2)
    else if jid_type == "iso-abbrev" then (acc.1, some value)
    else acc) (none, none)
  journalAssign journal_title pair.1 pair.2 metadata

/-- One iteration of the article identifier loop (lines 279-287). -/
def idsStep (md : Metadata) (aid : Element) : Metadata :=
  let id_type := (aid.getAttr "pub-id-type").getD ""
  let value := pyStrip (aid.text.getD "")
  if id_type == "pmid" then { md with pmid := some value }
  else if id_type == "pmcid" then { md with pmcid := some value }
  else if id_type == "doi" then { md with doi := some value }
  else md

/-- Article identifier loop (lines 279-287): last occurrence of each typed
id wins, the value stored even when the element text is empty. -/
def idsStage (article_meta : Element) (metadata : Metadata) : Metadata :=
  (findallTag article_meta "article-id").foldl idsStep metadata

/-- Title block (lines 290-294). -/
def titleStage (article_meta : Element) (md : Metadata) : Metadata :=
  match findTag article_meta "title-group" with
  | none => md
  | some tg =>
    match findTag tg "article-title" with
    | none => md
    | some atEl => { md with title := some (pyStrip (String.join atEl.itertext)) }

/-- `(el.text or "").strip()`. -/
def elTextStrip (e : Element) : String := pyStrip (e.text.getD "")

/-- Publication-date resolution (lines 298-317): the epub `pub-date` entry
is preferred; otherwise only the year of a collection entry is taken. -/
def resolveDate (article_meta : Element) : Option String × Option String × Option String :=
  match findTagAttr article_meta "pub-date" "pub-type" "epub" with
  | some pd =>
    ((findTag pd "year").map elTextStrip,
     (findTag pd "month").map elTextStrip,
     (findTag pd "day").map elTextStrip)
  | none =>
    match findTagAttr article_meta "pub-date" "pub-type" "collection" with
    | some cd => ((findTag cd "year").map elTextStrip, none, none)
    | none => (none, none, none)

/-- Date storage (lines 321-333): flat fields for each resolved component;
the nested `pub_date` dictionary is created only when a year was resolved. -/
def dateStage (article_meta : Element) (md : Metadata) : Metadata :=
  let r := resolveDate article_meta
  let md := match r.1 with | none => md | some y => { md with year := some y }
  let md := match r.2.1 with | none => md | some m => { md with month := some m }
  let md := match r.2.2 with | none => md | some d => { md with day := some d }
  match r.1 with
  | none => md
  | some y => { md with pub_date := some ⟨y, r.2.1, r.2.2⟩ }

/-- Lines 343-351: the display name assembled from surname, given names
and the `initials` attribute. -/
def authorFullName (name_el : Element) : String :=
  let surname := pyStrip ((name_el.findtext "surname").getD "")
  let given := pyStrip ((name_el.findtext "given-names").getD "")
  let initials := pyStrip ((name_el.getAttr "initials").getD "")
  if given != "" then pyStrip (surname ++ " " ++ given)
  else if initials != "" then pyStrip (surname ++ " " ++ initials)
  else surname

/-- Display name of one contributor (lines 337-353), `none` when skipped. -/
def authorName (contrib : Element) : Option String :=
  if contrib.getAttr "contrib-type" != some "author" then none
  else
    match findTag contrib "name" with
    | none => none
    | some name_el =>
      let full := authorFullName name_el
      if full != "" then some full else none

/-- Author list block (lines 336-355). -/
def authorsStage (article_meta : Element) (md : Metadata) : Metadata :=
  let authors := (findallPath2 article_meta "contrib-group" "contrib").filterMap authorName
  if authors.isEmpty then md else { md with authors := some authors }

/-- Abstract block (lines 358-360). -/
def abstractStage (article_meta : Element) (md : Metadata) : Metadata :=
  match findTag article_meta "abstract" with
  | none => md
  | some ab => { md with abstract := some (pyStrip (String.intercalate " " ab.itertext)) }

/-- One keyword entry (lines 364-367): kept only when its trimmed text is
truthy. -/
def kwdText (kwd : Element) : Option String :=
  let text := pyStrip (String.join kwd.itertext)
  if text != "" then some text else none

/-- Keyword block (lines 363-369). -/
def keywordsStage (article_meta : Element) (md : Metadata) : Metadata :=
  let keywords := (findallPath2 article_meta "kwd-group" "kwd").filterMap kwdText
  if keywords.isEmpty then md else { md with keywords := some keywords }

/-- Everything done once `article_meta` was found (lines 279-371). -/
def articleMetaStage (article_meta : Element) (md : Metadata) : Metadata :=
  keywordsStage article_meta
    (abstractStage article_meta
      (authorsStage article_meta
        (dateStage article_meta
          (titleStage article_meta
            (idsStage article_meta md)))))

/-- Line 228: the document root itself when tagged `article`, otherwise its
first direct `article` child. -/
def getArticle (root : Element) : Option Element :=
  if root.tag != "article" then findTag root "article" else some root

/-- `extract_metadata_from_pmc_xml` (lines 212-371).  The argument is the
result of `ET.fromstring`: `none` models any parse exception, which the
source catches and answers with the empty dictionary. -/
def extract_metadata_from_pmc_xml (parsed : Option Element) : Metadata :=
  match parsed with
  | none => {}
  | some root =>
    match getArticle root with
    | none => {}
    | some article =>
      match findTag article "front" with
      | none => {}
      | some front =>
        let metadata := journalStage (findTag front "journal-meta") {}
        match findTag front "article-meta" with
        | none => metadata
        | some article_meta => articleMetaStage article_meta metadata

/-! ## RateLimiter (downloader.py lines 62-78)

The mutex serializes the body of `wait`, so a run is a sequence of
critical-section executions.  One execution reads `time.monotonic()`
(`now1`), sleeps when `wait_time > 0`, reads the clock again (`now2`) and
stores it in `_last_request` — the grant time of that call.  `ClockStep`
records the two clock readings of one call; `validStep` captures the
physics of a monotonic clock plus `time.sleep` suspending for at least the
requested duration. -/

/-- Constructor line 66: `self._min_interval = max(0.0, min_interval)`. -/
def RateLimiter.storedInterval (min_interval : ℚ) : ℚ := max 0 min_interval

/-- The two monotonic-clock readings one `wait()` call performs. -/
structure ClockStep where
  now1 : ℚ
  now2 : ℚ
deriving Repr, DecidableEq

/-- Lines 70-78: the new `_last_request` after one call, given the stored
interval, the previous stamp and the two clock readings. -/
def RateLimiter.wait (min_interval last now1 now2 : ℚ) : ℚ :=
  if min_interval ≤ 0 then last else now2

/-- Clock physics of one call: the monotonic clock never goes backwards
across the previous stamp and the two readings, and when line 77 sleeps
`wait_time = last + min_interval - now1 > 0` seconds, the second reading
is at least `last + min_interval`. -/
def validStep (min_interval last : ℚ) (s : ClockStep) : Prop :=
  last ≤ s.now1 ∧ s.now1 ≤ s.now2 ∧
    (s.now1 < last + min_interval → last + min_interval ≤ s.now2)

/-- A whole serialized run is valid when every call's readings are. -/
def validTrace (min_interval : ℚ) : ℚ → List ClockStep → Prop
  | _, [] => True
  | last, s :: rest =>
    validStep min_interval last s ∧
      validTrace min_interval (RateLimiter.wait min_interval last s.now1 s.now2) rest

/-- The successive `_last_request` stamps (grant times) of a run. -/
def grantTimes (min_interval : ℚ) : ℚ → List ClockStep → List ℚ
  | _, [] => []
  | last, s :: rest =>
    let g := RateLimiter.wait min_interval last s.now1 s.now2
    g :: grantTimes min_interval g rest

/-! ## esearch_pmc (downloader.py lines 140-199) -/

/-- Outcome of one search attempt as seen by the `try` block: the three
exception classes the `except` clause catches, or a parsed JSON body
(`idlist`, and `count` when it parses as an integer — line 186 falls back
to the idlist length otherwise via the caught `ValueError`... a missing or
unparsable `count` is modelled by `none` only when `int()` would succeed on
the default, i.e. the fallback `len(pmcids)` is used for a missing key). -/
inductive SearchAttempt where
  | transportError
  | badStatus
  | unparsable
  | ok (idlist : List String) (count : Option Nat)
deriving Repr, DecidableEq

/-- `RETRY_DELAY` (line 55). -/
def RETRY_DELAY : ℚ := 2

/-- The retry loop of `esearch_pmc` (lines 177-199), from attempt index
`attempt` on.  The oracle gives the outcome of each attempt; the result
pairs the returned `(pmcids, total_count)` with the list of back-off
sleeps performed (line 194: `RETRY_DELAY * (attempt + 1)`). -/
def esearchLoop (oracle : Nat → SearchAttempt) (retries : Nat) (attempt : Nat) :
    (List String × Nat) × List ℚ :=
  if h : attempt < retries then
    match oracle attempt with
    | .ok idlist count => ((idlist, count.getD idlist.length), [])
    | _ =>
      if attempt < retries - 1 then
        let rest := esearchLoop oracle retries (attempt + 1)
        (rest.1, RETRY_DELAY * (attempt + 1) :: rest.2)
      else (([], 0), [])
  else (([], 0), [])
termination_by retries - attempt

/-- `esearch_pmc` (lines 140-199): runs the retry loop from attempt 0. -/
def esearch_pmc (oracle : Nat → SearchAttempt) (retries : Nat) :
    (List String × Nat) × List ℚ :=
  esearchLoop oracle retries 0

/-! ## efetch_pmc (downloader.py lines 374-519) -/

/-- `pmcid_numeric` (line 404). -/
def pmcidNumeric (pmcid : String) : String :=
  if pyStartsWith pmcid "PMC" then pyReplace pmcid "PMC" "" else pmcid

/-- `pmcid_display` (line 407). -/
def pmcidDisplay (pmcid : String) : String :=
  let n := pmcidNumeric pmcid
  if !(pyStartsWith n "PMC") then "PMC" ++ n else n

/-- Outcome of one fetch attempt: a `requests.RequestException` during the
GET, or an HTTP response with its status code and the `ET.fromstring`
parse of its body (`none` = `ET.ParseError`). -/
inductive FetchAttempt where
  | exn
  | http (status : Nat) (body : Option Element)

/-- What one `efetch_pmc` call did: the returned `(success, status)` pair,
how many network requests it issued, and whether it wrote the record file. -/
structure FetchOutcome where
  success : Bool
  status : String
  calls : Nat
  wrote : Bool
deriving Repr, DecidableEq

/-- Is the parsed body PMC's error wrapper (lines 456-458):
root tag `pmc-articleset` with an `error` child? -/
def isErrorWrapper (root : Element) : Bool :=
  root.tag == "pmc-articleset" && (findTag root "error").isSome

/-- The retry loop of `efetch_pmc` (lines 432-519), from attempt index
`attempt` on.  `writeOk` tells whether the single `write_text` of line 504
succeeds (its `IOError`/`OSError` is caught and not retried, lines
515-517).  `calls` counts network requests from this attempt on. -/
def efetchLoop (oracle : Nat → FetchAttempt) (writeOk : Bool)
    (retries : Nat) (attempt : Nat) : FetchOutcome :=
  if h : attempt < retries then
    match oracle attempt with
    | .exn =>
      if attempt < retries - 1 then
        let r := efetchLoop oracle writeOk retries (attempt + 1)
        { r with calls := r.calls + 1 }
      else ⟨false, "error", 1, false⟩
    | .http status body =>
      if status ≠ 200 then
        if attempt < retries - 1 then
          let r := efetchLoop oracle writeOk retries (attempt + 1)
          { r with calls := r.calls + 1 }
        else ⟨false, "error", 1, false⟩
      else
        match body with
        | none =>
          if attempt < retries - 1 then
            let r := efetchLoop oracle writeOk retries (attempt + 1)
            { r with calls := r.calls + 1 }
          else ⟨false, "error", 1, false⟩
        | some root =>
          if isErrorWrapper root then ⟨false, "unavailable", 1, false⟩
          else if writeOk then ⟨true, "success", 1, true⟩
          else ⟨false, "error", 1, false⟩
  else ⟨false, "error", 0, false⟩
termination_by retries - attempt

/-- `efetch_pmc` (lines 374-519): after normalizing the identifier, if the
record file `pmcid_display ++ ".json"` is already present in the
destination (lines 417-419) the call answers `(True, "exists")` at once;
otherwise the retry loop runs. -/
def efetch_pmc (pmcid : String) (files : List String)
    (oracle : Nat → FetchAttempt) (writeOk : Bool) (retries : Nat) : FetchOutcome :=
  if (pmcidDisplay pmcid ++ ".json") ∈ files then ⟨true, "exists", 0, false⟩
  else efetchLoop oracle writeOk retries 0

/-! ## search_and_download (downloader.py lines 522-743) and the CLI -/

/-- `DownloadStats` (lines 96-108), numeric fields. -/
structure DownloadStats where
  total_found : Nat
  requested : Nat
  successful : Nat
  failed : Nat
  skipped : Nat
  unavailable : Nat
  errors : Nat
deriving Repr, DecidableEq

/-- What processing one identifier yields at the coordinator: the
`(success, status)` pair of `efetch_pmc`, or an exception caught by the
per-identifier `except` clause (lines 677-680 / 712-714). -/
inductive IdResult where
  | ok (success : Bool) (status : String)
  | raised
deriving Repr, DecidableEq

/-- The per-identifier tally (lines 662-669 / 699-706): each completed
identifier bumps exactly one of the four counters, exceptions counting as
errors.  The accumulator is `(successful, skipped, unavailable, errors)`. -/
def tallyStep (acc : Nat × Nat × Nat × Nat) (r : IdResult) : Nat × Nat × Nat × Nat :=
  match r with
  | .ok _ status =>
    if status == "success" then (acc.1 + 1, acc.2.1, acc.2.2.1, acc.2.2.2)
    else if status == "exists" then (acc.1, acc.2.1 + 1, acc.2.2.1, acc.2.2.2)
    else if status == "unavailable" then (acc.1, acc.2.1, acc.2.2.1 + 1, acc.2.2.2)
    else (acc.1, acc.2.1, acc.2.2.1, acc.2.2.2 + 1)
  | .raised => (acc.1, acc.2.1, acc.2.2.1, acc.2.2.2 + 1)

def tallyCounters (rs : List IdResult) : Nat × Nat × Nat × Nat :=
  rs.foldl tallyStep (0, 0, 0, 0)

/-- `search_and_download` (lines 522-743), outcome level.  `searchOutcome`
is `none` when the defensive `except` around `esearch_pmc` fires (lines
587-602); otherwise it carries `(pmcids, total_found)`.  `results` gives
the per-identifier outcome; the tally is the same fold whether the
dispatch was concurrent or sequential. -/
def search_and_download (searchOutcome : Option (List String × Nat))
    (results : String → IdResult) : DownloadStats :=
  match searchOutcome with
  | none => ⟨0, 0, 0, 0, 0, 0, 0⟩
  | some (pmcids, total_found) =>
    if pmcids.isEmpty then ⟨total_found, 0, 0, 0, 0, 0, 0⟩
    else
      let c := tallyCounters (pmcids.map results)
      { total_found := total_found
        requested := pmcids.length
        successful := c.1
        failed := c.2.2.1 + c.2.2.2
        skipped := c.2.1
        unavailable := c.2.2.1
        errors := c.2.2.2 }

/-- Exit-code logic of the CLI `download` command (cli.py lines 133-139). -/
def mainExitCode (stats : DownloadStats) : Nat :=
  if stats.successful > 0 then 0
  else if stats.skipped > 0 ∧ stats.errors = 0 then 0
  else if stats.requested = 0 then 1
  else 2

/-! ## Concrete documents and runs used by witnesses and counterexamples -/

/-- An `article-id` element typed `pmid` with no text. -/
def emptyPmidEl : Element := .mk "article-id" [("pub-id-type", "pmid")] none [] none

/-- A minimal well-formed article whose only identifier is an empty pmid. -/
def cexPmidDoc : Element :=
  .mk "article" [] none
    [.mk "front" [] none
      [.mk "article-meta" [] none [emptyPmidEl] none] none] none

/-- An epub `pub-date` carrying a month but no year. -/
def epubMonthOnly : Element :=
  .mk "pub-date" [("pub-type", "epub")] none
    [.mk "month" [] (some "03") [] none] none

/-- Article whose epub date has a month but no year. -/
def cexDateDoc : Element :=
  .mk "article" [] none
    [.mk "front" [] none
      [.mk "article-meta" [] none [epubMonthOnly] none] none] none

/-- An epub `pub-date` with year, month and day. -/
def epubFullDate : Element :=
  .mk "pub-date" [("pub-type", "epub")] none
    [.mk "year" [] (some "2020") [] none,
     .mk "month" [] (some "03") [] none,
     .mk "day" [] (some "05") [] none] none

def withDateAm : Element := .mk "article-meta" [] none [epubFullDate] none

def withDateFront : Element := .mk "front" [] none [withDateAm] none

def withDateDoc : Element := .mk "article" [] none [withDateFront] none

/-- Article with a journal title, for the C7 witness. -/
def journalDoc : Element :=
  .mk "article" [] none
    [.mk "front" [] none
      [.mk "journal-meta" [] none
        [.mk "journal-title-group" [] none
          [.mk "journal-title" [] (some "Aging Cell") [] none] none] none] none] none

/-- A document root that is not an article and has no article child. -/
def nonArticleRoot : Element := .mk "bookstore" [] none [] none

/-- The PMC error wrapper returned for an unavailable identifier. -/
def errWrapperRoot : Element :=
  .mk "pmc-articleset" [] none
    [.mk "error" [] (some "The following PMCID is not available") [] none] none

/-- Did a search attempt fail (transport error, non-2xx status raised by
`raise_for_status`, or unparsable response body)? -/
def SearchAttempt.isFailure : SearchAttempt → Bool
  | .ok _ _ => false
  | _ => true

/-- A run with one already-present record and one hard error, exercising
the CLI exit-code logic. -/
def c9Oracle : String → IdResult :=
  fun s => if s == "1" then .ok true "exists" else .ok false "error"

def c9Stats : DownloadStats := search_and_download (some (["1", "2"], 2)) c9Oracle

/-! ## Helper lemmas -/

theorem tallyStep_sum (acc : Nat × Nat × Nat × Nat) (r : IdResult) :
    (tallyStep acc r).1 + (tallyStep acc r).2.1 + (tallyStep acc r).2.2.1 +
      (tallyStep acc r).2.2.2 =
    acc.1 + acc.2.1 + acc.2.2.1 + acc.2.2.2 + 1 := by
  cases r with
  | ok s status => simp only [tallyStep]; split_ifs <;> simp <;> omega
  | raised => simp only [tallyStep]; omega

theorem tallyFold_sum (rs : List IdResult) (acc : Nat × Nat × Nat × Nat) :
    (rs.foldl tallyStep acc).1 + (rs.foldl tallyStep acc).2.1 +
      (rs.foldl tallyStep acc).2.2.1 + (rs.foldl tallyStep acc).2.2.2 =
    acc.1 + acc.2.1 + acc.2.2.1 + acc.2.2.2 + rs.length := by
  induction rs generalizing acc with
  | nil => simp
  | cons r rs ih =>
    simp only [List.foldl_cons, List.length_cons]
    rw [ih (tallyStep acc r), tallyStep_sum]
    omega

theorem tallyCounters_sum (rs : List IdResult) :
    (tallyCounters rs).1 + (tallyCounters rs).2.1 + (tallyCounters rs).2.2.1 +
      (tallyCounters rs).2.2.2 = rs.length := by
  unfold tallyCounters
  rw [tallyFold_sum]
  simp

/-! ## C2 -/

/-- C2: for every run of `search_and_download` — search failure, empty
search result, or a batch of identifiers each completing with a
`(success, status)` pair or an exception — the returned stats satisfy
`requested = successful + skipped + unavailable + errors`: each completed
identifier is counted under exactly one of the four outcome counters. -/
theorem search_and_download_counter_invariant
    (searchOutcome : Option (List String × Nat)) (results : String → IdResult) :
    (search_and_download searchOutcome results).requested =
      (search_and_download searchOutcome results).successful +
      (search_and_download searchOutcome results).skipped +
      (search_and_download searchOutcome results).unavailable +
      (search_and_download searchOutcome results).errors := by
  unfold search_and_download
  match searchOutcome with
  | none => rfl
  | some (pmcids, total_found) =>
    cases hemp : pmcids.isEmpty with
    | true => simp [hemp]
    | false =>
      simp only [hemp, Bool.false_eq_true, if_false]
      have h := tallyCounters_sum (pmcids.map results)
      simp only [List.length_map] at h
      omega

/-! ## C9 -/

/-- C9 counterexample: a run with one already-present record (skipped),
one error and nothing newly downloaded exits with code 2, although at
least one record was already present — refuting the claim that the exit
code is zero whenever at least one record was skipped. -/
theorem cli_exit_nonzero_despite_skip :
    c9Stats.skipped = 1 ∧ c9Stats.successful = 0 ∧ mainExitCode c9Stats = 2 := by
  decide

/-- C9 (amended): the CLI `download` command exits zero exactly when at
least one article was newly downloaded, or at least one record was
already present and no identifier errored; otherwise it exits 1 when
nothing was requested and 2 when something was. -/
theorem mainExitCode_zero_iff (stats : DownloadStats) :
    (mainExitCode stats = 0 ↔
      0 < stats.successful ∨ (0 < stats.skipped ∧ stats.errors = 0)) ∧
    (stats.successful = 0 → (stats.skipped = 0 ∨ 0 < stats.errors) →
      mainExitCode stats = if stats.requested = 0 then 1 else 2) := by
  unfold mainExitCode
  by_cases h1 : stats.successful > 0
  · rw [if_pos h1]
    exact ⟨by simp [h1], fun hx _ => by omega⟩
  · by_cases h2 : stats.skipped > 0 ∧ stats.errors = 0
    · rw [if_neg h1, if_pos h2]
      refine ⟨by simp [h2], fun hx hy => ?_⟩
      obtain ⟨h2a, h2b⟩ := h2
      rcases hy with hy | hy <;> omega
    · rw [if_neg h1, if_neg h2]
      refine ⟨⟨fun h => ?_, fun h => ?_⟩, fun hx hy => rfl⟩
      · split_ifs at h
      · rcases h with h | h
        · omega
        · exact absurd h h2

/-- Witness for the amended C9 theorem at the concrete stats of the
counterexample run: no success, one skip, one error, two requested. -/
theorem mainExitCode_zero_iff_witness :
    mainExitCode c9Stats = if c9Stats.requested = 0 then 1 else 2 :=
  (mainExitCode_zero_iff c9Stats).2 (by decide) (by decide)

/-! ## C4 -/

/-- C4: when the record file named after the display form of the
identifier (`pmcidDisplay pmcid ++ ".json"`) is already present in the
destination, `efetch_pmc` answers `(True, "exists")` at once, issues zero
network requests and writes nothing. -/
theorem efetch_exists_short_circuit (pmcid : String) (files : List String)
    (oracle : Nat → FetchAttempt) (writeOk : Bool) (retries : Nat)
    (h : (pmcidDisplay pmcid ++ ".json") ∈ files) :
    efetch_pmc pmcid files oracle writeOk retries =
      ⟨true, "exists", 0, false⟩ := by
  unfold efetch_pmc
  rw [if_pos h]

/-- Witness: fetching `"123"` when `PMC123.json` is already present. -/
theorem efetch_exists_short_circuit_witness :
    (pmcidDisplay "123" ++ ".json") ∈ ["PMC123.json"] ∧
    efetch_pmc "123" ["PMC123.json"] (fun _ => .exn) true 3 =
      ⟨true, "exists", 0, false⟩ :=
  ⟨by decide,
   efetch_exists_short_circuit "123" ["PMC123.json"] (fun _ => .exn) true 3 (by decide)⟩

/-! ## C10 -/

theorem efetchLoop_classified_aux (oracle : Nat → FetchAttempt) (writeOk : Bool) :
    ∀ (fuel retries attempt : Nat), retries - attempt ≤ fuel →
      ((efetchLoop oracle writeOk retries attempt).status = "success" ∨
       (efetchLoop oracle writeOk retries attempt).status = "exists" ∨
       (efetchLoop oracle writeOk retries attempt).status = "unavailable" ∨
       (efetchLoop oracle writeOk retries attempt).status = "error") ∧
      ((efetchLoop oracle writeOk retries attempt).success = true ↔
       ((efetchLoop oracle writeOk retries attempt).status = "success" ∨
        (efetchLoop oracle writeOk retries attempt).status = "exists")) := by
  intro fuel
  induction fuel with
  | zero =>
    intro retries attempt h
    have hnl : ¬ attempt < retries := by omega
    rw [efetchLoop]
    rw [dif_neg hnl]
    simp
  | succ n ih =>
    intro retries attempt h
    rw [efetchLoop]
    by_cases hlt : attempt < retries
    · rw [dif_pos hlt]
      cases ho : oracle attempt with
      | exn =>
        by_cases h2 : attempt < retries - 1
        · rw [if_pos h2]
          have := ih retries (attempt + 1) (by omega)
          simpa using this
        · rw [if_neg h2]; simp
      | http status body =>
        dsimp only
        by_cases hs : status ≠ 200
        · rw [if_pos hs]
          by_cases h2 : attempt < retries - 1
          · rw [if_pos h2]
            have := ih retries (attempt + 1) (by omega)
            simpa using this
          · rw [if_neg h2]; simp
        · rw [if_neg hs]
          cases body with
          | none =>
            dsimp only
            by_cases h2 : attempt < retries - 1
            · rw [if_pos h2]
              have := ih retries (attempt + 1) (by omega)
              simpa using this
            · rw [if_neg h2]; simp
          | some root =>
            dsimp only
            by_cases hw : isErrorWrapper root
            · rw [if_pos hw]; simp
            · rw [if_neg hw]
              by_cases hok : writeOk
              · rw [if_pos hok]; simp
              · rw [if_neg hok]; simp
    · rw [dif_neg hlt]; simp

/-- C10: on every return path — existence short-circuit, success,
unavailable, exhausted retries, malformed XML and local write failure —
the pair returned by `efetch_pmc` has a status among `success`, `exists`,
`unavailable`, `error`, and its boolean is `True` exactly when the status
is `success` or `exists`. -/
theorem efetch_result_classified (pmcid : String) (files : List String)
    (oracle : Nat → FetchAttempt) (writeOk : Bool) (retries : Nat) :
    ((efetch_pmc pmcid files oracle writeOk retries).status = "success" ∨
     (efetch_pmc pmcid files oracle writeOk retries).status = "exists" ∨
     (efetch_pmc pmcid files oracle writeOk retries).status = "unavailable" ∨
     (efetch_pmc pmcid files oracle writeOk retries).status = "error") ∧
    ((efetch_pmc pmcid files oracle writeOk retries).success = true ↔
     ((efetch_pmc pmcid files oracle writeOk retries).status = "success" ∨
      (efetch_pmc pmcid files oracle writeOk retries).status = "exists")) := by
  unfold efetch_pmc
  split_ifs with h
  · simp
  · exact efetchLoop_classified_aux oracle writeOk retries retries 0 (by omega)

/-! ## C5 -/

/-- C5: when the response body of the attempt at hand parses as the PMC
error wrapper (`pmc-articleset` root with an `error` child), the fetch
answers `(False, "unavailable")` after that single request, making no
further retry attempt no matter how many retries remain; in particular a
first-attempt wrapper makes `efetch_pmc` return `(False, "unavailable")`
with exactly one network request. -/
theorem efetch_error_wrapper_unavailable (pmcid : String) (files : List String)
    (oracle : Nat → FetchAttempt) (writeOk : Bool) (retries attempt : Nat)
    (root : Element)
    (hlt : attempt < retries)
    (hresp : oracle attempt = .http 200 (some root))
    (hwrap : isErrorWrapper root = true) :
    efetchLoop oracle writeOk retries attempt = ⟨false, "unavailable", 1, false⟩ ∧
    (attempt = 0 → (pmcidDisplay pmcid ++ ".json") ∉ files →
      efetch_pmc pmcid files oracle writeOk retries =
        ⟨false, "unavailable", 1, false⟩) := by
  have hloop : efetchLoop oracle writeOk retries attempt =
      ⟨false, "unavailable", 1, false⟩ := by
    rw [efetchLoop, dif_pos hlt, hresp]
    dsimp only
    rw [if_neg (fun hne => hne rfl)]
    rw [if_pos hwrap]
  refine ⟨hloop, fun h0 hnf => ?_⟩
  subst h0
  unfold efetch_pmc
  rw [if_neg hnf]
  exact hloop

/-- Witness: a first-attempt error-wrapper response, three retries
allowed, one single request made. -/
theorem efetch_error_wrapper_unavailable_witness :
    efetch_pmc "123" [] (fun _ => .http 200 (some errWrapperRoot)) true 3 =
      ⟨false, "unavailable", 1, false⟩ :=
  (efetch_error_wrapper_unavailable "123" []
    (fun _ => .http 200 (some errWrapperRoot)) true 3 0 errWrapperRoot
    (by omega) rfl (by decide)).2 rfl (by simp)

/-! ## C6 -/

theorem esearchLoop_all_fail (oracle : Nat → SearchAttempt) :
    ∀ (fuel retries attempt : Nat), retries - attempt ≤ fuel →
      (∀ a, attempt ≤ a → a < retries → (oracle a).isFailure = true) →
      esearchLoop oracle retries attempt =
        (([], 0), (List.range' (attempt + 1) (retries - 1 - attempt)).map
          (fun k : Nat => RETRY_DELAY * (k : ℚ))) := by
  intro fuel
  induction fuel with
  | zero =>
    intro retries attempt h hf
    have hnl : ¬ attempt < retries := by omega
    have hz : retries - 1 - attempt = 0 := by omega
    rw [esearchLoop, dif_neg hnl, hz]
    rfl
  | succ n ih =>
    intro retries attempt h hf
    by_cases hlt : attempt < retries
    · rw [esearchLoop, dif_pos hlt]
      have hfa := hf attempt le_rfl hlt
      cases ho : oracle attempt with
      | ok l c => rw [ho] at hfa; simp [SearchAttempt.isFailure] at hfa
      | transportError =>
        dsimp only
        by_cases h2 : attempt < retries - 1
        · rw [if_pos h2,
            ih retries (attempt + 1) (by omega) (fun a ha hb => hf a (by omega) hb)]
          have hr : retries - 1 - attempt = (retries - 1 - (attempt + 1)) + 1 := by omega
          rw [hr, List.range'_succ]
          simp only [List.map_cons, Prod.mk.injEq, List.cons.injEq]
          refine ⟨trivial, by push_cast; ring, trivial⟩
        · rw [if_neg h2]
          have hz : retries - 1 - attempt = 0 := by omega
          rw [hz]
          rfl
      | badStatus =>
        dsimp only
        by_cases h2 : attempt < retries - 1
        · rw [if_pos h2,
            ih retries (attempt + 1) (by omega) (fun a ha hb => hf a (by omega) hb)]
          have hr : retries - 1 - attempt = (retries - 1 - (attempt + 1)) + 1 := by omega
          rw [hr, List.range'_succ]
          simp only [List.map_cons, Prod.mk.injEq, List.cons.injEq]
          refine ⟨trivial, by push_cast; ring, trivial⟩
        · rw [if_neg h2]
          have hz : retries - 1 - attempt = 0 := by omega
          rw [hz]
          rfl
      | unparsable =>
        dsimp only
        by_cases h2 : attempt < retries - 1
        · rw [if_pos h2,
            ih retries (attempt + 1) (by omega) (fun a ha hb => hf a (by omega) hb)]
          have hr : retries - 1 - attempt = (retries - 1 - (attempt + 1)) + 1 := by omega
          rw [hr, List.range'_succ]
          simp only [List.map_cons, Prod.mk.injEq, List.cons.injEq]
          refine ⟨trivial, by push_cast; ring, trivial⟩
        · rw [if_neg h2]
          have hz : retries - 1 - attempt = 0 := by omega
          rw [hz]
          rfl
    · have hz : retries - 1 - attempt = 0 := by omega
      rw [esearchLoop, dif_neg hlt, hz]
      rfl

/-- C6: when every attempt of `esearch_pmc` fails — transport error,
non-2xx status raised by `raise_for_status`, or unparsable response body —
until the retry count is exhausted, the function returns an empty
identifier list and a zero total instead of raising, having slept the
linearly increasing backoffs `RETRY_DELAY * 1, RETRY_DELAY * 2, ...,
RETRY_DELAY * (retries - 1)` between consecutive attempts. -/
theorem esearch_exhausted_returns_empty (oracle : Nat → SearchAttempt) (retries : Nat)
    (hf : ∀ a, a < retries → (oracle a).isFailure = true) :
    esearch_pmc oracle retries =
      (([], 0), (List.range' 1 (retries - 1)).map (fun k : Nat => RETRY_DELAY * (k : ℚ))) := by
  unfold esearch_pmc
  have h := esearchLoop_all_fail oracle retries retries 0 (by omega) (fun a _ hb => hf a hb)
  simpa using h

/-- Witness: three transport errors in a row yield `([], 0)` with the
backoff sleeps `[2, 4]` seconds. -/
theorem esearch_exhausted_witness :
    esearch_pmc (fun _ => .transportError) 3 = (([], 0), [2, 4]) := by
  rw [esearch_exhausted_returns_empty (fun _ => .transportError) 3 (fun a _ => rfl)]
  norm_num [List.range', RETRY_DELAY]

/-! ## C3 -/

/-- C3: `extract_metadata_from_pmc_xml` is total by construction — the
embedding is a function defined on every input, mirroring the source
catching every parse exception — and both on a parse failure (the `none`
input) and on any parsed document lacking an article root (root not
tagged `article` and without a direct `article` child) it returns the
empty record. -/
theorem extract_empty_on_bad_input :
    extract_metadata_from_pmc_xml none = ({} : Metadata) ∧
    ∀ root : Element, root.tag ≠ "article" → findTag root "article" = none →
      extract_metadata_from_pmc_xml (some root) = ({} : Metadata) := by
  refine ⟨rfl, fun root h1 h2 => ?_⟩
  unfold extract_metadata_from_pmc_xml getArticle
  dsimp only
  have hb : (root.tag != "article") = true := bne_iff_ne.mpr h1
  rw [if_pos hb, h2]

/-- Witness: a `bookstore` root without an `article` child yields the
empty record. -/
theorem extract_empty_witness :
    nonArticleRoot.tag ≠ "article" ∧
    extract_metadata_from_pmc_xml (some nonArticleRoot) = ({} : Metadata) :=
  ⟨by decide, extract_empty_on_bad_input.2 nonArticleRoot (by decide) rfl⟩

/-! ## C1 -/

theorem wait_gap (m last : ℚ) (s : ClockStep) (hm : 0 < m) (hv : validStep m last s) :
    last + m ≤ RateLimiter.wait m last s.now1 s.now2 := by
  unfold RateLimiter.wait
  rw [if_neg (by linarith : ¬ m ≤ 0)]
  rcases hv with ⟨h1, h2, h3⟩
  by_cases hc : s.now1 < last + m
  · exact h3 hc
  · push_neg at hc; linarith

theorem grantTimes_cons (m last : ℚ) (s : ClockStep) (rest : List ClockStep) :
    grantTimes m last (s :: rest) =
      RateLimiter.wait m last s.now1 s.now2 ::
        grantTimes m (RateLimiter.wait m last s.now1 s.now2) rest := rfl

theorem validTrace_cons (m last : ℚ) (s : ClockStep) (rest : List ClockStep) :
    validTrace m last (s :: rest) ↔
      validStep m last s ∧
        validTrace m (RateLimiter.wait m last s.now1 s.now2) rest := Iff.rfl

theorem grantTimes_chain (m : ℚ) (hm : 0 < m) :
    ∀ (steps : List ClockStep) (last : ℚ), validTrace m last steps →
      ∀ k, k + 1 < (grantTimes m last steps).length →
        (grantTimes m last steps).getD k 0 + m ≤
          (grantTimes m last steps).getD (k + 1) 0 := by
  intro steps
  induction steps with
  | nil => intro last _ k hk; simp [grantTimes] at hk
  | cons s rest ih =>
    intro last hv k hk
    rw [validTrace_cons] at hv
    obtain ⟨hs, hrest⟩ := hv
    rw [grantTimes_cons] at hk ⊢
    cases k with
    | zero =>
      cases rest with
      | nil => simp [grantTimes] at hk
      | cons s2 rest2 =>
        rw [validTrace_cons] at hrest
        obtain ⟨hs2, _⟩ := hrest
        rw [grantTimes_cons]
        simp only [List.getD_cons_zero, List.getD_cons_succ]
        exact wait_gap m _ s2 hm hs2
    | succ k =>
      simp only [List.getD_cons_succ]
      exact ih (RateLimiter.wait m last s.now1 s.now2) hrest k (by simpa using hk)

theorem grantTimes_gap_pairs (m : ℚ) (hm : 0 < m) (steps : List ClockStep) (last : ℚ)
    (hv : validTrace m last steps) :
    ∀ i j, i < j → j < (grantTimes m last steps).length →
      (grantTimes m last steps).getD i 0 + m ≤ (grantTimes m last steps).getD j 0 := by
  intro i j
  induction j with
  | zero => intro hij _; omega
  | succ j ihj =>
    intro hij hj
    rcases Nat.lt_succ_iff_lt_or_eq.mp hij with h | h
    · have h1 := ihj h (by omega)
      have h2 := grantTimes_chain m hm steps last hv j (by omega)
      linarith
    · subst h
      exact grantTimes_chain m hm steps last hv i (by omega)

/-- C1: for every sequence of `wait()` calls on one `RateLimiter` built
with `min_interval > 0` — concurrent callers included, since the mutex
serializes the timed body and the trace lists the calls in lock order —
any two grant times (the `_last_request` monotonic-clock stamps under
which the calls return) are at least `min_interval` apart, given the
monotonic-clock and `time.sleep` axioms captured by `validTrace`. -/
theorem rateLimiter_inter_grant_gap (min_interval init : ℚ) (steps : List ClockStep)
    (hm : 0 < min_interval)
    (hv : validTrace (RateLimiter.storedInterval min_interval) init steps)
    (i j : Nat) (hij : i < j)
    (hj : j < (grantTimes (RateLimiter.storedInterval min_interval) init steps).length) :
    min_interval ≤
      (grantTimes (RateLimiter.storedInterval min_interval) init steps).getD j 0 -
      (grantTimes (RateLimiter.storedInterval min_interval) init steps).getD i 0 := by
  have hstored : RateLimiter.storedInterval min_interval = min_interval := by
    unfold RateLimiter.storedInterval
    exact max_eq_right hm.le
  rw [hstored] at hv hj ⊢
  have h := grantTimes_gap_pairs min_interval hm steps init hv i j hij hj
  linarith

/-- Witness: interval 1, a first call granted at time 1 and a second at
time 2, one second apart. -/
theorem rateLimiter_gap_witness :
    (1 : ℚ) ≤
      (grantTimes (RateLimiter.storedInterval 1) 0 [⟨1/2, 1⟩, ⟨3/2, 2⟩]).getD 1 0 -
      (grantTimes (RateLimiter.storedInterval 1) 0 [⟨1/2, 1⟩, ⟨3/2, 2⟩]).getD 0 0 :=
  rateLimiter_inter_grant_gap 1 0 [⟨1/2, 1⟩, ⟨3/2, 2⟩] (by norm_num)
    (by norm_num [validTrace, validStep, RateLimiter.wait, RateLimiter.storedInterval])
    0 1 (by norm_num)
    (by norm_num [grantTimes, RateLimiter.wait, RateLimiter.storedInterval])

/-! ## Stage shape lemmas: which fields each extraction block can touch -/

theorem truthy_ne (o : Option String) (s : String) (ht : truthy o = true)
    (he : o = some s) : s ≠ "" := by
  subst he
  simp [truthy] at ht
  exact ht

theorem idsFold_shape (l : List Element) (md : Metadata) :
    ∃ p pc d, l.foldl idsStep md = { md with pmid := p, pmcid := pc, doi := d } := by
  induction l generalizing md with
  | nil => exact ⟨md.pmid, md.pmcid, md.doi, rfl⟩
  | cons aid l ih =>
    rw [List.foldl_cons]
    obtain ⟨p, pc, d, h⟩ := ih (idsStep md aid)
    refine ⟨p, pc, d, ?_⟩
    rw [h]
    unfold idsStep
    dsimp only
    split_ifs <;> rfl

theorem journalAssign_shape (jt nlm iso : Option String) (md : Metadata) :
    ∃ a b c d, journalAssign jt nlm iso md =
      { md with
          journal_title := a
          journal_nlm_ta := b
          journal_iso_abbrev := c
          journal := d } := by
  unfold journalAssign
  dsimp only
  split_ifs <;> exact ⟨_, _, _, _, rfl⟩

theorem journalStage_shape (jm : Option Element) (md : Metadata) :
    ∃ a b c d, journalStage jm md =
      { md with
          journal_title := a
          journal_nlm_ta := b
          journal_iso_abbrev := c
          journal := d } := by
  unfold journalStage
  dsimp only
  exact journalAssign_shape _ _ _ md

theorem titleStage_shape (am : Element) (md : Metadata) :
    ∃ t, titleStage am md = { md with title := t } := by
  unfold titleStage
  cases findTag am "title-group" with
  | none => exact ⟨md.title, rfl⟩
  | some tg =>
    dsimp only
    cases findTag tg "article-title" with
    | none => exact ⟨md.title, rfl⟩
    | some atEl => exact ⟨_, rfl⟩

theorem dateStage_shape (am : Element) (md : Metadata) :
    ∃ y mo da pd, dateStage am md =
      { md with
          year := y
          month := mo
          day := da
          pub_date := pd } := by
  unfold dateStage
  rcases hr : resolveDate am with ⟨y, m, d⟩
  dsimp only
  cases y <;> cases m <;> cases d <;> exact ⟨_, _, _, _, rfl⟩

theorem authorsStage_shape (am : Element) (md : Metadata) :
    ∃ a, authorsStage am md = { md with authors := a } := by
  unfold authorsStage
  dsimp only
  split_ifs
  · exact ⟨md.authors, rfl⟩
  · exact ⟨_, rfl⟩

theorem abstractStage_shape (am : Element) (md : Metadata) :
    ∃ ab, abstractStage am md = { md with abstract := ab } := by
  unfold abstractStage
  cases findTag am "abstract" with
  | none => exact ⟨md.abstract, rfl⟩
  | some abEl => dsimp only; exact ⟨_, rfl⟩

theorem keywordsStage_shape (am : Element) (md : Metadata) :
    ∃ k, keywordsStage am md = { md with keywords := k } := by
  unfold keywordsStage
  dsimp only
  split_ifs
  · exact ⟨md.keywords, rfl⟩
  · exact ⟨_, rfl⟩

theorem articleMetaStage_shape (am : Element) (md : Metadata) :
    ∃ p pc d t y mo da pd au ab kw, articleMetaStage am md =
      { md with
          pmid := p
          pmcid := pc
          doi := d
          title := t
          year := y
          month := mo
          day := da
          pub_date := pd
          authors := au
          abstract := ab
          keywords := kw } := by
  unfold articleMetaStage idsStage
  obtain ⟨p, pc, d, h1⟩ := idsFold_shape (findallTag am "article-id") md
  rw [h1]
  obtain ⟨t, h2⟩ := titleStage_shape am _
  rw [h2]
  obtain ⟨y, mo, da, pd, h3⟩ := dateStage_shape am _
  rw [h3]
  obtain ⟨au, h4⟩ := authorsStage_shape am _
  rw [h4]
  obtain ⟨ab, h5⟩ := abstractStage_shape am _
  rw [h5]
  obtain ⟨kw, h6⟩ := keywordsStage_shape am _
  rw [h6]
  exact ⟨p, pc, d, t, y, mo, da, pd, au, ab, kw, rfl⟩

/-! ## Value lemmas for authors, keywords, journal fields, dates -/

theorem authorName_ne_empty (c : Element) (a : String) (h : authorName c = some a) :
    a ≠ "" := by
  unfold authorName at h
  by_cases h1 : c.getAttr "contrib-type" != some "author"
  · rw [if_pos h1] at h
    exact Option.noConfusion h
  · rw [if_neg h1] at h
    cases hn : findTag c "name" with
    | none => rw [hn] at h; exact Option.noConfusion h
    | some nel =>
      rw [hn] at h
      dsimp only at h
      split_ifs at h with h2
      have he := Option.some.inj h
      subst he
      exact bne_iff_ne.mp h2

theorem kwdText_ne_empty (k : Element) (s : String) (h : kwdText k = some s) :
    s ≠ "" := by
  unfold kwdText at h
  dsimp only at h
  split_ifs at h with h1
  have he := Option.some.inj h
  subst he
  exact bne_iff_ne.mp h1

theorem authorsStage_chars (am : Element) (md : Metadata) :
    (authorsStage am md).authors = md.authors ∨
    ∃ l, (authorsStage am md).authors = some l ∧ l ≠ [] ∧ ∀ a ∈ l, a ≠ "" := by
  unfold authorsStage
  dsimp only
  split_ifs with h
  · left; rfl
  · right
    refine ⟨_, rfl, ?_, ?_⟩
    · simpa [List.isEmpty_iff] using h
    · intro a ha
      obtain ⟨c, hc, hsome⟩ := List.mem_filterMap.mp ha
      exact authorName_ne_empty c a hsome

theorem keywordsStage_chars (am : Element) (md : Metadata) :
    (keywordsStage am md).keywords = md.keywords ∨
    ∃ l, (keywordsStage am md).keywords = some l ∧ l ≠ [] ∧ ∀ s ∈ l, s ≠ "" := by
  unfold keywordsStage
  dsimp only
  split_ifs with h
  · left; rfl
  · right
    refine ⟨_, rfl, ?_, ?_⟩
    · simpa [List.isEmpty_iff] using h
    · intro s hs
      obtain ⟨k, hk, hsome⟩ := List.mem_filterMap.mp hs
      exact kwdText_ne_empty k s hsome

theorem journalAssign_fields (jt nlm iso : Option String) (md : Metadata)
    (hjt : ∀ s, md.journal_title = some s → s ≠ "")
    (hnlm : ∀ s, md.journal_nlm_ta = some s → s ≠ "")
    (hiso : ∀ s, md.journal_iso_abbrev = some s → s ≠ "")
    (hj : ∀ s, md.journal = some s → s ≠ "") :
    (∀ s, (journalAssign jt nlm iso md).journal_title = some s → s ≠ "") ∧
    (∀ s, (journalAssign jt nlm iso md).journal_nlm_ta = some s → s ≠ "") ∧
    (∀ s, (journalAssign jt nlm iso md).journal_iso_abbrev = some s → s ≠ "") ∧
    (∀ s, (journalAssign jt nlm iso md).journal = some s → s ≠ "") := by
  unfold journalAssign
  dsimp only
  split_ifs <;>
    refine ⟨fun s hs => ?_, fun s hs => ?_, fun s hs => ?_, fun s hs => ?_⟩ <;>
    first
      | exact hjt s hs
      | exact hnlm s hs
      | exact hiso s hs
      | exact hj s hs
      | (refine truthy_ne _ s ?_ hs; assumption)

theorem journalStage_journal_fields (jm : Option Element) (md : Metadata)
    (hjt : ∀ s, md.journal_title = some s → s ≠ "")
    (hnlm : ∀ s, md.journal_nlm_ta = some s → s ≠ "")
    (hiso : ∀ s, md.journal_iso_abbrev = some s → s ≠ "")
    (hj : ∀ s, md.journal = some s → s ≠ "") :
    (∀ s, (journalStage jm md).journal_title = some s → s ≠ "") ∧
    (∀ s, (journalStage jm md).journal_nlm_ta = some s → s ≠ "") ∧
    (∀ s, (journalStage jm md).journal_iso_abbrev = some s → s ≠ "") ∧
    (∀ s, (journalStage jm md).journal = some s → s ≠ "") := by
  unfold journalStage
  dsimp only
  exact journalAssign_fields _ _ _ md hjt hnlm hiso hj

theorem dateStage_clean (am : Element) (md : Metadata)
    (h1 : md.year = none) (h2 : md.month = none) (h3 : md.day = none)
    (h4 : md.pub_date = none) :
    dateStage am md =
      { md with
          year := (resolveDate am).1
          month := (resolveDate am).2.1
          day := (resolveDate am).2.2
          pub_date := (resolveDate am).1.map
            (fun yv => ⟨yv, (resolveDate am).2.1, (resolveDate am).2.2⟩) } := by
  obtain ⟨j1, j2, j3, j4, p1, p2, p3, t, yy, mm, dd, pd, au, ab, kw⟩ := md
  dsimp only at h1 h2 h3 h4
  subst h1
  subst h2
  subst h3
  subst h4
  unfold dateStage
  rcases hr : resolveDate am with ⟨y, m, d⟩
  dsimp only
  cases y <;> cases m <;> cases d <;> rfl

theorem articleMetaStage_journal_fields (am : Element) (md : Metadata) :
    (articleMetaStage am md).journal_title = md.journal_title ∧
    (articleMetaStage am md).journal_nlm_ta = md.journal_nlm_ta ∧
    (articleMetaStage am md).journal_iso_abbrev = md.journal_iso_abbrev ∧
    (articleMetaStage am md).journal = md.journal := by
  obtain ⟨p, pc, d, t, y, mo, da, pd, au, ab, kw, h⟩ := articleMetaStage_shape am md
  rw [h]
  exact ⟨rfl, rfl, rfl, rfl⟩

theorem preAuthors_authors (am : Element) (md : Metadata) :
    (dateStage am (titleStage am (idsStage am md))).authors = md.authors := by
  obtain ⟨y, mo, da, pd, h3⟩ := dateStage_shape am (titleStage am (idsStage am md))
  rw [h3]
  obtain ⟨t, h2⟩ := titleStage_shape am (idsStage am md)
  rw [h2]
  unfold idsStage
  obtain ⟨p, pc, d, h1⟩ := idsFold_shape (findallTag am "article-id") md
  rw [h1]

theorem articleMetaStage_authors (am : Element) (md : Metadata) :
    (articleMetaStage am md).authors = md.authors ∨
    ∃ l, (articleMetaStage am md).authors = some l ∧ l ≠ [] ∧ ∀ a ∈ l, a ≠ "" := by
  unfold articleMetaStage
  obtain ⟨kw, h6⟩ := keywordsStage_shape am
    (abstractStage am (authorsStage am (dateStage am (titleStage am (idsStage am md)))))
  rw [h6]
  obtain ⟨ab, h5⟩ := abstractStage_shape am
    (authorsStage am (dateStage am (titleStage am (idsStage am md))))
  rw [h5]
  dsimp only
  rcases authorsStage_chars am (dateStage am (titleStage am (idsStage am md))) with
    h | ⟨l, hl, hne, hmem⟩
  · left
    rw [h, preAuthors_authors am md]
  · right
    exact ⟨l, hl, hne, hmem⟩

theorem preKeywords_keywords (am : Element) (md : Metadata) :
    (abstractStage am (authorsStage am (dateStage am (titleStage am
      (idsStage am md))))).keywords = md.keywords := by
  obtain ⟨ab, h5⟩ := abstractStage_shape am
    (authorsStage am (dateStage am (titleStage am (idsStage am md))))
  rw [h5]
  obtain ⟨au, h4⟩ := authorsStage_shape am (dateStage am (titleStage am (idsStage am md)))
  rw [h4]
  obtain ⟨y, mo, da, pd, h3⟩ := dateStage_shape am (titleStage am (idsStage am md))
  rw [h3]
  obtain ⟨t, h2⟩ := titleStage_shape am (idsStage am md)
  rw [h2]
  unfold idsStage
  obtain ⟨p, pc, d, h1⟩ := idsFold_shape (findallTag am "article-id") md
  rw [h1]

theorem articleMetaStage_keywords (am : Element) (md : Metadata) :
    (articleMetaStage am md).keywords = md.keywords ∨
    ∃ l, (articleMetaStage am md).keywords = some l ∧ l ≠ [] ∧ ∀ s ∈ l, s ≠ "" := by
  unfold articleMetaStage
  rcases keywordsStage_chars am (abstractStage am (authorsStage am (dateStage am
    (titleStage am (idsStage am md))))) with h | ⟨l, hl, hne, hmem⟩
  · left
    rw [h, preKeywords_keywords am md]
  · right
    exact ⟨l, hl, hne, hmem⟩

theorem articleMetaStage_date_fields (am : Element) (md : Metadata)
    (h1 : md.year = none) (h2 : md.month = none) (h3 : md.day = none)
    (h4 : md.pub_date = none) :
    (articleMetaStage am md).year = (resolveDate am).1 ∧
    (articleMetaStage am md).month = (resolveDate am).2.1 ∧
    (articleMetaStage am md).day = (resolveDate am).2.2 ∧
    (articleMetaStage am md).pub_date = (resolveDate am).1.map
      (fun yv => ⟨yv, (resolveDate am).2.1, (resolveDate am).2.2⟩) := by
  unfold articleMetaStage
  obtain ⟨kw, h6⟩ := keywordsStage_shape am
    (abstractStage am (authorsStage am (dateStage am (titleStage am (idsStage am md)))))
  rw [h6]
  obtain ⟨ab, h5⟩ := abstractStage_shape am
    (authorsStage am (dateStage am (titleStage am (idsStage am md))))
  rw [h5]
  obtain ⟨au, h4'⟩ := authorsStage_shape am (dateStage am (titleStage am (idsStage am md)))
  rw [h4']
  have hpre : (titleStage am (idsStage am md)).year = none ∧
      (titleStage am (idsStage am md)).month = none ∧
      (titleStage am (idsStage am md)).day = none ∧
      (titleStage am (idsStage am md)).pub_date = none := by
    obtain ⟨t, ht⟩ := titleStage_shape am (idsStage am md)
    rw [ht]
    unfold idsStage
    obtain ⟨p, pc, d, hi⟩ := idsFold_shape (findallTag am "article-id") md
    rw [hi]
    exact ⟨h1, h2, h3, h4⟩
  rw [dateStage_clean am _ hpre.1 hpre.2.1 hpre.2.2.1 hpre.2.2.2]
  exact ⟨rfl, rfl, rfl, rfl⟩

theorem extract_eq_of_path (root article front article_meta : Element)
    (ha : getArticle root = some article)
    (hf : findTag article "front" = some front)
    (hm : findTag front "article-meta" = some article_meta) :
    extract_metadata_from_pmc_xml (some root) =
      articleMetaStage article_meta
        (journalStage (findTag front "journal-meta") {}) := by
  unfold extract_metadata_from_pmc_xml
  dsimp only
  rw [ha]
  dsimp only
  rw [hf]
  dsimp only
  rw [hm]

/-! ## C7 -/

/-- C7 counterexample: an `article-id` element typed `pmid` with no text
makes `extract_metadata_from_pmc_xml` store the identifier as the empty
string — the record does contain an identifier field with an empty value,
refuting the claim that no identifier, date, or name field is ever stored
with an empty value. -/
theorem extract_stores_empty_pmid :
    (extract_metadata_from_pmc_xml (some cexPmidDoc)).pmid = some "" := by
  decide

/-- C7 (amended): `extract_metadata_from_pmc_xml` never stores a null
value (absent keys are simply absent); the journal-name fields, the
author list and the keyword list are stored only when non-empty, with
every stored author display name and keyword non-empty.  (Identifier,
title, abstract and date fields, however, are stored whenever the
corresponding element is present, even with empty text.) -/
theorem extract_fields_never_empty (parsed : Option Element) :
    (∀ s, (extract_metadata_from_pmc_xml parsed).journal_title = some s → s ≠ "") ∧
    (∀ s, (extract_metadata_from_pmc_xml parsed).journal_nlm_ta = some s → s ≠ "") ∧
    (∀ s, (extract_metadata_from_pmc_xml parsed).journal_iso_abbrev = some s → s ≠ "") ∧
    (∀ s, (extract_metadata_from_pmc_xml parsed).journal = some s → s ≠ "") ∧
    (∀ l, (extract_metadata_from_pmc_xml parsed).authors = some l →
      l ≠ [] ∧ ∀ a ∈ l, a ≠ "") ∧
    (∀ l, (extract_metadata_from_pmc_xml parsed).keywords = some l →
      l ≠ [] ∧ ∀ s ∈ l, s ≠ "") := by
  cases parsed with
  | none => simp [extract_metadata_from_pmc_xml]
  | some root =>
    unfold extract_metadata_from_pmc_xml
    dsimp only
    cases hga : getArticle root with
    | none => simp
    | some article =>
      dsimp only
      cases hfr : findTag article "front" with
      | none => simp
      | some front =>
        dsimp only
        cases ham : findTag front "article-meta" with
        | none =>
          have hjf := journalStage_journal_fields (findTag front "journal-meta")
            ({} : Metadata) (by simp) (by simp) (by simp) (by simp)
          obtain ⟨a, b, c, d, hs0⟩ :=
            journalStage_shape (findTag front "journal-meta") ({} : Metadata)
          refine ⟨hjf.1, hjf.2.1, hjf.2.2.1, hjf.2.2.2, ?_, ?_⟩
          · intro l hl
            rw [hs0] at hl
            exact Option.noConfusion hl
          · intro l hl
            rw [hs0] at hl
            exact Option.noConfusion hl
        | some am =>
          have hjf0 := journalStage_journal_fields (findTag front "journal-meta")
            ({} : Metadata) (by simp) (by simp) (by simp) (by simp)
          have hjf := articleMetaStage_journal_fields am
            (journalStage (findTag front "journal-meta") {})
          obtain ⟨a, b, c, d, hs0⟩ :=
            journalStage_shape (findTag front "journal-meta") ({} : Metadata)
          refine ⟨?_, ?_, ?_, ?_, ?_, ?_⟩
          · intro s hs
            rw [hjf.1] at hs
            exact hjf0.1 s hs
          · intro s hs
            rw [hjf.2.1] at hs
            exact hjf0.2.1 s hs
          · intro s hs
            rw [hjf.2.2.1] at hs
            exact hjf0.2.2.1 s hs
          · intro s hs
            rw [hjf.2.2.2] at hs
            exact hjf0.2.2.2 s hs
          · intro l hl
            rcases articleMetaStage_authors am
              (journalStage (findTag front "journal-meta") {}) with
              h | ⟨l2, hl2, hne, hmem⟩
            · rw [h, hs0] at hl
              exact Option.noConfusion hl
            · have he : l2 = l := Option.some.inj (hl2.symm.trans hl)
              subst he
              exact ⟨hne, hmem⟩
          · intro l hl
            rcases articleMetaStage_keywords am
              (journalStage (findTag front "journal-meta") {}) with
              h | ⟨l2, hl2, hne, hmem⟩
            · rw [h, hs0] at hl
              exact Option.noConfusion hl
            · have he : l2 = l := Option.some.inj (hl2.symm.trans hl)
              subst he
              exact ⟨hne, hmem⟩

/-- Witness for the amended C7 theorem: the journal title `Aging Cell` is
stored and, by the theorem, is non-empty. -/
theorem extract_fields_never_empty_witness :
    (extract_metadata_from_pmc_xml (some journalDoc)).journal_title = some "Aging Cell" ∧
    "Aging Cell" ≠ "" :=
  ⟨by decide, (extract_fields_never_empty (some journalDoc)).1 "Aging Cell" (by decide)⟩

/-! ## C8 -/

/-- C8 counterexample: an epub `pub-date` with a month but no year makes
`extract_metadata_from_pmc_xml` store the flat `month` field while
creating no nested `pub_date` structure at all — a date component is
resolved yet the mirror does not happen, refuting the claim that the
mirror always happens when any date component is resolved. -/
theorem extract_month_without_mirror :
    (extract_metadata_from_pmc_xml (some cexDateDoc)).month = some "03" ∧
    (extract_metadata_from_pmc_xml (some cexDateDoc)).year = none ∧
    (extract_metadata_from_pmc_xml (some cexDateDoc)).pub_date = none := by
  decide

/-- C8 (amended): the publication date is resolved from the epub
`pub-date` entry (year, month and day) when one exists, falling back to
only the year of a collection entry otherwise; every resolved component
is stored as a flat top-level field, and the nested `pub_date` mirror is
created exactly when a year was resolved — it then carries the resolved
year together with any resolved month and day. -/
theorem extract_pub_date_resolution (root article front article_meta : Element)
    (ha : getArticle root = some article)
    (hf : findTag article "front" = some front)
    (hm : findTag front "article-meta" = some article_meta) :
    (extract_metadata_from_pmc_xml (some root)).year = (resolveDate article_meta).1 ∧
    (extract_metadata_from_pmc_xml (some root)).month = (resolveDate article_meta).2.1 ∧
    (extract_metadata_from_pmc_xml (some root)).day = (resolveDate article_meta).2.2 ∧
    (extract_metadata_from_pmc_xml (some root)).pub_date =
      (resolveDate article_meta).1.map
        (fun yv => ⟨yv, (resolveDate article_meta).2.1, (resolveDate article_meta).2.2⟩) ∧
    ((extract_metadata_from_pmc_xml (some root)).pub_date.isSome ↔
      (extract_metadata_from_pmc_xml (some root)).year.isSome) ∧
    (∀ pd, findTagAttr article_meta "pub-date" "pub-type" "epub" = some pd →
      resolveDate article_meta =
        ((findTag pd "year").map elTextStrip, (findTag pd "month").map elTextStrip,
         (findTag pd "day").map elTextStrip)) ∧
    (findTagAttr article_meta "pub-date" "pub-type" "epub" = none →
      resolveDate article_meta =
        ((findTagAttr article_meta "pub-date" "pub-type" "collection").bind
          (fun cd => (findTag cd "year").map elTextStrip), none, none)) := by
  rw [extract_eq_of_path root article front article_meta ha hf hm]
  obtain ⟨a, b, c, d, hs0⟩ :=
    journalStage_shape (findTag front "journal-meta") ({} : Metadata)
  have hd := articleMetaStage_date_fields article_meta
    (journalStage (findTag front "journal-meta") {})
    (by rw [hs0]) (by rw [hs0]) (by rw [hs0]) (by rw [hs0])
  refine ⟨hd.1, hd.2.1, hd.2.2.1, hd.2.2.2, ?_, ?_, ?_⟩
  · rw [hd.2.2.2, hd.1]
    cases (resolveDate article_meta).1 <;> simp
  · intro pd hpd
    unfold resolveDate
    rw [hpd]
  · intro hnone
    unfold resolveDate
    rw [hnone]
    cases hc : findTagAttr article_meta "pub-date" "pub-type" "collection" <;> simp

/-- Witness for the amended C8 theorem: a full epub date 2020-03-05 is
stored flat and mirrored into the nested structure. -/
theorem extract_pub_date_resolution_witness :
    (extract_metadata_from_pmc_xml (some withDateDoc)).year = some "2020" ∧
    (extract_metadata_from_pmc_xml (some withDateDoc)).pub_date =
      some ⟨"2020", some "03", some "05"⟩ := by
  have h := extract_pub_date_resolution withDateDoc withDateDoc withDateFront withDateAm
    rfl rfl rfl
  exact ⟨h.1.trans (by decide), h.2.2.2.1.trans (by decide)⟩
